import Mathlib

/-!
# Verification of the deepgram-cli batch transcription tool

Shallow embedding of `src/deepgram-cli/deepgram_cli.py` and proofs about it.

The program is a command-line utility that submits audio/video files to the
Deepgram speech-to-text service, and either prints the transcript or writes
subtitle files, optionally muxing the subtitles back into the original video.
External effects (the ffmpeg subprocesses, the network call, the filesystem)
are modelled explicitly: the filesystem is a map from paths to contents, and
an `Oracle` records the outcome of every external interaction of one job
(the names `mkstemp` chooses, whether each ffmpeg invocation succeeded, and
the transcription response or its absence when the request raised).
-/

namespace DeepgramCli

/-! ## Filesystem model -/

/-- A filesystem: a map from path to file contents (`none` = no such file). -/
def Fs : Type := String → Option String

/-- Create or overwrite the file at `p` with contents `v`. -/
def Fs.set (fs : Fs) (p v : String) : Fs := fun q => if q = p then some v else fs q

/-- Delete the file at `p` (`os.remove` / the removal half of `os.replace`). -/
def Fs.remove (fs : Fs) (p : String) : Fs := fun q => if q = p then none else fs q

/-- Read the file at `p`. -/
def Fs.get (fs : Fs) (p : String) : Option String := fs p

/-- `os.path.exists p`. -/
def Fs.pathExists (fs : Fs) (p : String) : Bool := (fs p).isSome

@[simp] theorem Fs.get_set_same (fs : Fs) (p v : String) : (fs.set p v).get p = some v := by
  simp [Fs.set, Fs.get]

@[simp] theorem Fs.get_set_ne (fs : Fs) (p v q : String) (h : q ≠ p) :
    (fs.set p v).get q = fs.get q := by
  simp [Fs.set, Fs.get, h]

@[simp] theorem Fs.get_remove_same (fs : Fs) (p : String) : (fs.remove p).get p = none := by
  simp [Fs.remove, Fs.get]

@[simp] theorem Fs.get_remove_ne (fs : Fs) (p q : String) (h : q ≠ p) :
    (fs.remove p).get q = fs.get q := by
  simp [Fs.remove, Fs.get, h]

/-! ## String and path helpers

Character-level implementations of the Python string operations the program
uses, so that every definition evaluates by kernel reduction. -/

/-- Python `s.lower()`. -/
def py_lower (s : String) : String := String.mk (s.toList.map Char.toLower)

/-- Python `s.endswith(sfx)`. -/
def py_endswith (sfx s : String) : Bool := sfx.toList.isSuffixOf s.toList

/-- Python `s.startswith(p)`. -/
def py_startswith (p s : String) : Bool := p.toList.isPrefixOf s.toList

/-- Whether the character `c` occurs in `s`. -/
def py_contains (c : Char) (s : String) : Bool := s.toList.contains c

/-- Split a character list at every occurrence of the separator `c`
(Python `s.split(c)`: splitting the empty string gives one empty group). -/
def split_chars (c : Char) : List Char → List (List Char)
  | [] => [[]]
  | x :: xs =>
      match split_chars c xs with
      | [] => [[]]
      | g :: gs => if x = c then [] :: g :: gs else (x :: g) :: gs

/-- `os.path.basename`: the component after the last path separator. -/
def basename (p : String) : String := String.mk ((split_chars '/' p.toList).getLastD [])

/-- `os.path.dirname`: everything before the last path separator. -/
def dirname (p : String) : String :=
  String.intercalate "/" (((split_chars '/' p.toList).dropLast).map String.mk)

/-- `os.path.join d b` for a relative `b` (the only way the program uses it). -/
def path_join (d b : String) : String := if d = "" then b else d ++ "/" ++ b

/-- The root of `os.path.splitext`: drop the extension after the last dot,
unless every character before that dot is itself a dot (leading dots never
start an extension, so `.bashrc` keeps its name). -/
def splitext_root (name : String) : String :=
  let parts := split_chars '.' name.toList
  if parts.length ≤ 1 then name
  else
    let root := String.intercalate "." (parts.dropLast.map String.mk)
    if root.toList.all (· = '.') then name else root

/-- The sibling subtitle path the audio branch writes:
`os.path.join(os.path.dirname(fp), base_without_extension + ".srt")`. -/
def srt_filename (file_path : String) : String :=
  path_join (dirname file_path) (splitext_root (basename file_path) ++ ".srt")

/-- `os.replace src dst`: atomically rename `src` onto `dst`. The job model
only calls it with `src` present; if `src` is absent it is the identity. -/
def Fs.replace (fs : Fs) (src dst : String) : Fs :=
  match fs.get src with
  | none => fs
  | some v => (fs.remove src).set dst v

/-! ## ffmpeg command lines

The two subprocess invocations, verbatim from `extract_audio_from_video`
and `embed_subtitles_in_video`. -/

/-- The argument vector of the audio-extraction subprocess:
`ffmpeg -i video -vn -q:a 0 -map a audio -y`. -/
def extract_audio_cmd (video_path audio_path : String) : List String :=
  ["ffmpeg", "-i", video_path, "-vn", "-q:a", "0", "-map", "a", audio_path, "-y"]

/-- The argument vector of the subtitle-mux subprocess:
`ffmpeg -i video -i srt -c copy -c:s mov_text -metadata:s:s:0 language=eng out -y`. -/
def embed_subtitles_cmd (video_path srt_path output_path : String) : List String :=
  ["ffmpeg", "-i", video_path, "-i", srt_path, "-c", "copy", "-c:s", "mov_text",
   "-metadata:s:s:0", "language=eng", output_path, "-y"]

/-- Modelled from the spec for the refinement comparison (§4.2 vs §4.5): per
ffmpeg's documented CLI contract, an invocation copies streams unchanged
(demuxes without re-encoding) only when it selects the `copy` codec, as the
spec's own muxer contract does with `-c copy`; an invocation without it
re-encodes its outputs with the default or requested encoder. -/
def cmd_stream_copies (cmd : List String) : Prop := "copy" ∈ cmd

/-! ## Job model -/

/-- The CLI options a job reads (`process_audio_file` uses only these three
fields of `args`; which of `--file`/`--video` was passed is not among them). -/
structure Args where
  model : String
  language : String
  transcript : Bool

/-- The transcription service response, as far as the job consumes it:
the primary transcript string and the subtitle text the (deterministic,
external) `deepgram_captions` formatter derives from the timing data. -/
structure TranscriptResult where
  transcript : String
  srtText : String

/-- Outcomes of one job's external interactions: the fresh names `mkstemp`
chooses, the result of each ffmpeg subprocess (with the content it leaves at
its output path), and the transcription response (`none` = the request
raised, e.g. a network or API error). -/
structure Oracle where
  tempAudioName : String
  tempSrtName : String
  tempOutputName : String
  extractOk : Bool
  extractedAudio : String
  extractLeftover : String
  extractErrLine : String
  response : Option TranscriptResult
  exnMsg : String
  muxOk : Bool
  muxedVideo : String
  muxLeftover : String
  muxErrLine : String

/-- The externally visible actions a job attempts, in order. -/
inductive Step
  | mkstempAudio
  | extract
  | readAudio
  | transcribe
  | printTranscript
  | writeTempSrt
  | mkstempOutput
  | mux
  | replaceOriginal
  | writeSrtFile
  deriving DecidableEq, Repr

/-- `file_path.lower().endswith('.mp4')`: the only test deciding whether a
job is processed as video. -/
def is_video (file_path : String) : Bool := py_endswith ".mp4" (py_lower file_path)

/-- Local state at an exit of the `try` body: the three temp-path variables
as the `finally` block will see them, plus filesystem, printed lines and the
step trace. -/
structure BodyState where
  tempAudio : Option String
  tempSrt : Option String
  tempOut : Option String
  fs : Fs
  out : List String
  steps : List Step

/-- The job from `open(audio_file_path)` onward: read the audio bytes, call
the transcription service, then print the transcript or produce subtitles
(the video sub-branch muxes into a temp output and `os.replace`s it onto the
original on success). A failed read or a raising request falls to the
job-boundary `except` clause, which prints `An error occurred processing ...`. -/
def afterAudio (file_path : String) (args : Args) (w : Oracle)
    (tempAudio : Option String) (audio_file_path : String)
    (fs : Fs) (out : List String) (steps : List Step) : BodyState :=
  match fs.get audio_file_path with
  | none =>
      { tempAudio, tempSrt := none, tempOut := none, fs,
        out := out ++ ["An error occurred processing " ++ file_path ++ ": " ++ w.exnMsg],
        steps := steps ++ [Step.readAudio] }
  | some _buffer =>
      match w.response with
      | none =>
          { tempAudio, tempSrt := none, tempOut := none, fs,
            out := out ++ ["Sending request to Deepgram for transcription...",
                           "An error occurred processing " ++ file_path ++ ": " ++ w.exnMsg],
            steps := steps ++ [Step.readAudio, Step.transcribe] }
      | some resp =>
          let out := out ++ ["Sending request to Deepgram for transcription...",
                             "Received response from Deepgram."]
          let steps := steps ++ [Step.readAudio, Step.transcribe]
          if args.transcript then
            { tempAudio, tempSrt := none, tempOut := none, fs,
              out := out ++ ["Transcript for " ++ file_path ++ ":", resp.transcript],
              steps := steps ++ [Step.printTranscript] }
          else if is_video file_path then
            let fsS := fs.set w.tempSrtName resp.srtText
            let fsO := fsS.set w.tempOutputName ""
            if w.muxOk then
              let fsM := fsO.set w.tempOutputName w.muxedVideo
              { tempAudio, tempSrt := some w.tempSrtName, tempOut := none,
                fs := fsM.replace w.tempOutputName file_path,
                out := out ++ ["Generating subtitles...", "Embedding subtitles into video...",
                               "Subtitles embedded into " ++ file_path],
                steps := steps ++ [Step.writeTempSrt, Step.mkstempOutput, Step.mux,
                                   Step.replaceOriginal] }
            else
              { tempAudio, tempSrt := some w.tempSrtName, tempOut := some w.tempOutputName,
                fs := fsO.set w.tempOutputName w.muxLeftover,
                out := out ++ ["Generating subtitles...", "Embedding subtitles into video...",
                               w.muxErrLine,
                               "Failed to embed subtitles. Original file unchanged."],
                steps := steps ++ [Step.writeTempSrt, Step.mkstempOutput, Step.mux] }
          else
            { tempAudio, tempSrt := none, tempOut := none,
              fs := fs.set (srt_filename file_path) resp.srtText,
              out := out ++ ["Generating subtitles...",
                             "SRT subtitles saved to: " ++ srt_filename file_path],
              steps := steps ++ [Step.writeSrtFile] }

/-- The `try` body of `process_audio_file`: for a video path, `mkstemp` a
temp audio file (created empty) and run the extraction subprocess, returning
early on failure; otherwise use the input path directly as the audio file. -/
def process_body (file_path : String) (args : Args) (w : Oracle) (fs0 : Fs) : BodyState :=
  if is_video file_path then
    let fs1 := fs0.set w.tempAudioName ""
    if w.extractOk then
      afterAudio file_path args w (some w.tempAudioName) w.tempAudioName
        (fs1.set w.tempAudioName w.extractedAudio)
        ["Processing video file: " ++ file_path,
         "Extracting audio from " ++ file_path ++ "...",
         "Audio extracted to temporary file."]
        [Step.mkstempAudio, Step.extract]
    else
      { tempAudio := some w.tempAudioName, tempSrt := none, tempOut := none,
        fs := fs1.set w.tempAudioName w.extractLeftover,
        out := ["Processing video file: " ++ file_path,
                "Extracting audio from " ++ file_path ++ "...",
                w.extractErrLine],
        steps := [Step.mkstempAudio, Step.extract] }
  else
    afterAudio file_path args w none file_path fs0 [] []

/-- One `if temp and os.path.exists(temp): os.remove(temp)` clause of the
`finally` block. -/
def cleanup1 (temp : Option String) (fs : Fs) : Fs :=
  match temp with
  | none => fs
  | some p => if fs.pathExists p then fs.remove p else fs

/-- A completed job: final filesystem, printed lines, attempted steps. -/
structure JobResult where
  fs : Fs
  out : List String
  steps : List Step

/-- `process_audio_file`: the `try` body followed by the `finally` cleanup
of the three temp paths (audio, then srt, then output). The job-boundary
`except Exception` is folded into the body, so the function is total: it
never propagates a failure to its caller. -/
def process_audio_file (file_path : String) (args : Args) (w : Oracle) (fs0 : Fs) : JobResult :=
  let st := process_body file_path args w fs0
  { fs := cleanup1 st.tempOut (cleanup1 st.tempSrt (cleanup1 st.tempAudio st.fs)),
    out := st.out, steps := st.steps }

/-! ## Orchestrator: batching -/

/-- `batch_size = 5` in `main`. -/
def batch_size : Nat := 5

/-- `ThreadPoolExecutor(max_workers=5)`: the pool bound of each batch. -/
def max_workers : Nat := 5

/-- The batch decomposition of the work list: the loop
`for i in range(0, len(media_files), batch_size): batch = media_files[i:i+batch_size]`.
Written by structural recursion, peeling `batch_size = 5` elements at a time;
a final group of one to four files forms the last batch. -/
def batches5 : List String → List (List String)
  | [] => []
  | a :: b :: c :: d :: e :: rest => [a, b, c, d, e] :: batches5 rest
  | l => [l]

/-- An event in the orchestrator's execution, tagged with its batch number
(numbered from 1, as the progress lines print them). -/
inductive BatchEvent
  | batchStart (k : Nat)
  | jobReturn (k : Nat) (file : String)
  | batchEnd (k : Nat)
  deriving DecidableEq, Repr

/-- The batch number an event belongs to. -/
def BatchEvent.idx : BatchEvent → Nat
  | .batchStart k => k
  | .jobReturn k _ => k
  | .batchEnd k => k

/-- The event trace of the batch loop from batch number `k` on: each batch
starts, every one of its jobs returns (the `for future in futures:
future.result()` join), and only then does the batch end and the next one
start. -/
def batch_trace_from : Nat → List (List String) → List BatchEvent
  | _, [] => []
  | k, b :: bs =>
      BatchEvent.batchStart k :: (b.map (BatchEvent.jobReturn k) ++
        (BatchEvent.batchEnd k :: batch_trace_from (k + 1) bs))

/-- The full event trace of the directory run over work list `l`. -/
def batch_trace (l : List String) : List BatchEvent :=
  batch_trace_from 1 (batches5 l)

/-- Sequential execution of a list of jobs (the linearization of one run:
jobs touch disjoint files, so any interleaving gives this filesystem).
Returns the final filesystem and the list of files whose job ran to
completion — `process_audio_file` is total, so `future.result()` never
raises and every submitted file appears. -/
def run_job_list (args : Args) (ow : String → Oracle) :
    List String → Fs → Fs × List String
  | [], fs => (fs, [])
  | f :: rest, fs =>
      let r := process_audio_file f args (ow f) fs
      let (fs', ran) := run_job_list args ow rest r.fs
      (fs', f :: ran)

/-! ## Orchestrator: path resolution (`main`) -/

/-- What `os.path.isdir` / `os.path.isfile` report for the root path. For a
directory, its direct-and-nested entries relative to the root, in `listdir`
order; an entry containing `/` lives in a subdirectory, so `glob` with a
single-component pattern never sees it. -/
inductive PathInfo
  | dir (entries : List String)
  | file
  | neither

/-- `file_extension` in `main`: the literal glob pattern chosen by the flag. -/
def file_extension (useVideo : Bool) : String :=
  if useVideo then "*.mp4" else "*.mp3"

/-- Whether `glob` matches a directory entry against the pattern `*` ++ suffix:
the entry is a direct child (no separator — `*` never crosses `/`), it ends
with the literal suffix (matched case-sensitively, POSIX `fnmatch`), and it
is not a hidden file (`*` does not match a leading dot). -/
def glob_entry_matches (suffix : String) (name : String) : Bool :=
  !(py_contains '/' name) && py_endswith suffix name && !(py_startswith "." name)

/-- `glob.glob(os.path.join(dir_path, "*" + suffix))`: the matching direct
entries, each prefixed with the directory path, in listing order. -/
def glob_dir (dir_path : String) (suffix : String) (entries : List String) : List String :=
  (entries.filter (glob_entry_matches suffix)).map (path_join dir_path)

/-- The suffix of the two patterns `main` uses (`*.mp3` / `*.mp4`). -/
def pattern_suffix (useVideo : Bool) : String :=
  if useVideo then ".mp4" else ".mp3"

/-- How `main` resolves the root path into work. -/
inductive RunOutcome
  | noMatchingFiles
  | invalidPath
  | ranSingle (file : String)
  | ranDir (work : List String)
  deriving DecidableEq, Repr

/-- The path-resolution part of `main`: directory → glob the pattern for the
selected media kind and fail when nothing matches; file → that single file;
neither → the invalid-path error. -/
def main_dispatch (file_path : String) (useVideo : Bool) (info : PathInfo) : RunOutcome :=
  match info with
  | .dir entries =>
      let media_files := glob_dir file_path (pattern_suffix useVideo) entries
      if media_files.isEmpty then .noMatchingFiles else .ranDir media_files
  | .file => .ranSingle file_path
  | .neither => .invalidPath

/-- The files `main` submits as jobs for a resolved outcome. -/
def RunOutcome.jobs : RunOutcome → List String
  | .noMatchingFiles => []
  | .invalidPath => []
  | .ranSingle f => [f]
  | .ranDir work => work

/-- Result of the whole program: the process exit status, the printed lines
that matter to the claims, and the submitted jobs. -/
structure MainResult where
  exitCode : Nat
  out : List String
  jobs : List String

/-- `main` up to job submission. The script never calls `sys.exit` and its
`main()` returns normally on every path, so the interpreter exits with
status 0 throughout; the credential check treats both an unset and an empty
`DEEPGRAM_API_KEY` as missing (`if not api_key`). -/
def main_model (apiKey : Option String) (file_path : String) (useVideo : Bool)
    (info : PathInfo) : MainResult :=
  match apiKey with
  | none =>
      { exitCode := 0,
        out := ["Error: DEEPGRAM_API_KEY not found in .env file or environment variables."],
        jobs := [] }
  | some key =>
      if key = "" then
        { exitCode := 0,
          out := ["Error: DEEPGRAM_API_KEY not found in .env file or environment variables."],
          jobs := [] }
      else
        match main_dispatch file_path useVideo info with
        | .noMatchingFiles =>
            { exitCode := 0,
              out := ["No " ++ (if useVideo then "MP4" else "MP3") ++
                      " files found in directory: " ++ file_path],
              jobs := [] }
        | .invalidPath =>
            { exitCode := 0,
              out := ["Error: " ++ file_path ++ " is not a valid file or directory"],
              jobs := [] }
        | .ranSingle f => { exitCode := 0, out := [], jobs := [f] }
        | .ranDir work => { exitCode := 0, out := [], jobs := work }

/-! ## Batching lemmas -/

theorem batches5_flatten (l : List String) : (batches5 l).flatten = l := by
  induction l using batches5.induct with
  | case1 => rfl
  | case2 a b c d e rest ih => simp [batches5, ih]
  | case3 l h0 h5 =>
    rcases l with _ | ⟨a, _ | ⟨b, _ | ⟨c, _ | ⟨d, _ | ⟨e, rest⟩⟩⟩⟩⟩
    · exact absurd rfl h0
    · rfl
    · rfl
    · rfl
    · rfl
    · exact absurd rfl (h5 a b c d e rest)

theorem batches5_length (l : List String) :
    (batches5 l).length = (l.length + 4) / 5 := by
  induction l using batches5.induct with
  | case1 => rfl
  | case2 a b c d e rest ih =>
    simp only [batches5, List.length_cons, ih]
    omega
  | case3 l h0 h5 =>
    rcases l with _ | ⟨a, _ | ⟨b, _ | ⟨c, _ | ⟨d, _ | ⟨e, rest⟩⟩⟩⟩⟩
    · exact absurd rfl h0
    · simp [batches5]
    · simp [batches5]
    · simp [batches5]
    · simp [batches5]
    · exact absurd rfl (h5 a b c d e rest)

theorem batches5_sizes (l : List String) :
    ∀ b ∈ batches5 l, b.length ≤ 5 ∧ b ≠ [] := by
  induction l using batches5.induct with
  | case1 => simp [batches5]
  | case2 a b c d e rest ih =>
    intro g hg
    rcases List.mem_cons.mp hg with rfl | hg
    · simp
    · exact ih g hg
  | case3 l h0 h5 =>
    rcases l with _ | ⟨a, _ | ⟨b, _ | ⟨c, _ | ⟨d, _ | ⟨e, rest⟩⟩⟩⟩⟩
    · exact absurd rfl h0
    · intro g hg; simp [batches5] at hg; subst hg; simp
    · intro g hg; simp [batches5] at hg; subst hg; simp
    · intro g hg; simp [batches5] at hg; subst hg; simp
    · intro g hg; simp [batches5] at hg; subst hg; simp
    · exact absurd rfl (h5 a b c d e rest)

theorem idx_ge_of_mem_trace_from (k : Nat) (bs : List (List String)) (e : BatchEvent)
    (he : e ∈ batch_trace_from k bs) : k ≤ e.idx := by
  induction bs generalizing k with
  | nil => simp [batch_trace_from] at he
  | cons b bs ih =>
    simp only [batch_trace_from, List.mem_cons, List.mem_append, List.mem_map] at he
    rcases he with rfl | ⟨⟨f, _, rfl⟩ | rfl | he⟩
    · exact le_refl _
    · exact le_refl _
    · exact le_refl _
    · exact Nat.le_of_succ_le (ih (k + 1) he)

theorem trace_from_pairwise (k : Nat) (bs : List (List String)) :
    (batch_trace_from k bs).Pairwise (fun e e' => e.idx ≤ e'.idx) := by
  induction bs generalizing k with
  | nil => simp [batch_trace_from]
  | cons b bs ih =>
    simp only [batch_trace_from]
    refine List.pairwise_cons.mpr ⟨?_, ?_⟩
    · intro e he
      simp only [List.mem_append, List.mem_cons, List.mem_map] at he
      rcases he with ⟨f, _, rfl⟩ | rfl | he
      · exact le_refl _
      · exact le_refl _
      · exact Nat.le_of_succ_le (idx_ge_of_mem_trace_from (k + 1) bs e he)
    · refine List.pairwise_append.mpr ⟨?_, ?_, ?_⟩
      · refine List.pairwise_of_forall_mem_list ?_
        intro x hx y hy
        simp only [List.mem_map] at hx hy
        obtain ⟨f, _, rfl⟩ := hx
        obtain ⟨g, _, rfl⟩ := hy
        exact le_refl _
      · refine List.pairwise_cons.mpr ⟨?_, ih (k + 1)⟩
        intro e he
        exact Nat.le_of_succ_le (idx_ge_of_mem_trace_from (k + 1) bs e he)
      · intro x hx y hy
        simp only [List.mem_map] at hx
        obtain ⟨f, _, rfl⟩ := hx
        rcases List.mem_cons.mp hy with rfl | hy
        · exact le_refl _
        · exact Nat.le_of_succ_le (idx_ge_of_mem_trace_from (k + 1) bs y hy)

/-! ## Cleanup lemmas -/

@[simp] theorem cleanup1_none_eq (fs : Fs) : cleanup1 none fs = fs := rfl

@[simp] theorem cleanup1_get_self (fs : Fs) (t : String) :
    (cleanup1 (some t) fs).get t = none := by
  rcases h : fs t with _ | v <;>
    simp [cleanup1, Fs.pathExists, Fs.get, Fs.remove, h]

@[simp] theorem cleanup1_get_ne (fs : Fs) (t p : String) (h : p ≠ t) :
    (cleanup1 (some t) fs).get p = fs.get p := by
  by_cases hex : (fs t).isSome <;>
    simp [cleanup1, Fs.pathExists, Fs.get, Fs.remove, hex, h]

theorem replace_get_ne (fs : Fs) (src dst p : String) (hs : p ≠ src) (hd : p ≠ dst) :
    (fs.replace src dst).get p = fs.get p := by
  rcases h : fs.get src with _ | v <;> simp [Fs.replace, h, hs, hd]

theorem replace_get_dst (fs : Fs) (src dst : String) (v : String)
    (h : fs.get src = some v) : (fs.replace src dst).get dst = some v := by
  simp [Fs.replace, h]

theorem replace_get_src (fs : Fs) (src dst : String) (v : String)
    (h : fs.get src = some v) (hne : src ≠ dst) : (fs.replace src dst).get src = none := by
  simp [Fs.replace, h, hne]

/-- `process_audio_file` is total, so the batch join (`future.result()` for
every submitted future) re-raises nothing and every submitted file's job
runs: the processed list is the submitted list, whatever each job's oracle
says happened. -/
theorem run_job_list_runs_all (args : Args) (ow : String → Oracle) :
    ∀ (files : List String) (fs : Fs), (run_job_list args ow files fs).2 = files := by
  intro files
  induction files with
  | nil => intro fs; rfl
  | cons f rest ih => intro fs; simp [run_job_list, ih]

/-- Steps already attempted stay in the trace through `afterAudio`. -/
theorem afterAudio_steps_mono (fp : String) (args : Args) (w : Oracle)
    (tempAudio : Option String) (audio : String) (fs : Fs) (out : List String)
    (steps : List Step) (s : Step) (hs : s ∈ steps) :
    s ∈ (afterAudio fp args w tempAudio audio fs out steps).steps := by
  rcases hget : fs.get audio with _ | buf
  · simp [afterAudio, hget, hs]
  · rcases hR : w.response with _ | resp
    · simp [afterAudio, hget, hR, hs]
    · rcases hT : args.transcript with _ | _
      · rcases hv : is_video fp with _ | _
        · simp [afterAudio, hget, hR, hT, hv, hs]
        · rcases hM : w.muxOk with _ | _
          · simp [afterAudio, hget, hR, hT, hv, hM, hs]
          · simp [afterAudio, hget, hR, hT, hv, hM, hs]
      · simp [afterAudio, hget, hR, hT, hs]

/-- `afterAudio` never adds an extraction step: anything in its trace was
already attempted or is one of the later (non-extraction) steps. -/
theorem afterAudio_steps_src (fp : String) (args : Args) (w : Oracle)
    (tempAudio : Option String) (audio : String) (fs : Fs) (out : List String)
    (steps : List Step) (s : Step)
    (hs : s ∈ (afterAudio fp args w tempAudio audio fs out steps).steps) :
    s ∈ steps ∨ s ≠ Step.extract := by
  have key : ∀ (l : List Step), s ∈ steps ++ l → (s ∈ l → s ≠ Step.extract) →
      s ∈ steps ∨ s ≠ Step.extract := by
    intro l hsl hne
    rcases List.mem_append.mp hsl with h | h
    · exact Or.inl h
    · exact Or.inr (hne h)
  rcases hget : fs.get audio with _ | buf
  · simp only [afterAudio, hget] at hs
    exact key _ hs (by intro h; fin_cases h <;> decide)
  · rcases hR : w.response with _ | resp
    · simp only [afterAudio, hget, hR] at hs
      exact key _ hs (by intro h; fin_cases h <;> decide)
    · rcases hT : args.transcript with _ | _
      · rcases hv : is_video fp with _ | _
        · simp only [afterAudio, hget, hR, hT, hv, Bool.false_eq_true, if_false,
            List.append_assoc] at hs
          exact key _ hs (by intro h; fin_cases h <;> decide)
        · rcases hM : w.muxOk with _ | _
          · simp only [afterAudio, hget, hR, hT, hv, hM, Bool.false_eq_true, if_false,
              if_true, List.append_assoc] at hs
            exact key _ hs (by intro h; fin_cases h <;> decide)
          · simp only [afterAudio, hget, hR, hT, hv, hM, Bool.false_eq_true, if_false,
              if_true, List.append_assoc] at hs
            exact key _ hs (by intro h; fin_cases h <;> decide)
      · simp only [afterAudio, hget, hR, hT, if_true, List.append_assoc] at hs
        exact key _ hs (by intro h; fin_cases h <;> decide)

/-! ## Claim theorems -/

/-- C1: for a directory input with N matching files, the orchestrator
partitions the work list into consecutive groups of at most 5 files (their
concatenation is the work list in order, so exactly ⌈N/5⌉ batches are
issued, each within the 5-worker pool bound), and in the execution trace
every job of batch k returns strictly before batch k' starts for k < k' —
in particular batch k+1 never starts before every job of batch k has
returned. -/
theorem orchestrator_batching (files : List String) :
    (batches5 files).length = (files.length + 4) / 5
    ∧ (∀ b ∈ batches5 files, b.length ≤ batch_size ∧ b.length ≤ max_workers)
    ∧ (batches5 files).flatten = files
    ∧ (∀ (i j : Nat) (hi : i < (batch_trace files).length)
         (hj : j < (batch_trace files).length) (k k' : Nat) (f : String),
         (batch_trace files)[i] = BatchEvent.jobReturn k f →
         (batch_trace files)[j] = BatchEvent.batchStart k' →
         k < k' → i < j) := by
  refine ⟨batches5_length files, ?_, batches5_flatten files, ?_⟩
  · intro b hb
    have h := (batches5_sizes files b hb).1
    exact ⟨h, h⟩
  · intro i j hi hj k k' f hie hje hkk
    have hpw := List.pairwise_iff_getElem.mp (trace_from_pairwise 1 (batches5 files))
    simp only [batch_trace] at hi hj hie hje
    by_contra hij
    rcases Nat.lt_or_ge j i with hlt | hge
    · have h2 := hpw j i hj hi hlt
      rw [hie, hje] at h2
      simp only [BatchEvent.idx] at h2
      omega
    · have : i = j := by omega
      subst this
      rw [hie] at hje
      exact absurd hje (by simp)

/-- Witness for C1 at a concrete six-file directory: job "b" of batch 1
(trace position 2) returns before batch 2 starts (trace position 7), and
the final two-file batch is within the batch-size bound. -/
theorem orchestrator_batching_witness :
    (2 : Nat) < 7 ∧ ["f", "g"].length ≤ batch_size := by
  constructor
  · exact (orchestrator_batching ["a", "b", "c", "d", "e", "f", "g"]).2.2.2 2 7
      (by decide) (by decide) 1 2 "b" (by decide) (by decide) (by decide)
  · exact ((orchestrator_batching ["a", "b", "c", "d", "e", "f", "g"]).2.1
      ["f", "g"] (by decide)).1

/-- C5 counterexample: the extraction command the code builds for a concrete
video contains no `copy` codec selection, so the audio stream is not
demuxed unchanged — the claim that it is "demuxed, not re-encoded" is false
on the code. -/
theorem extractor_reencodes_counterexample :
    ¬ cmd_stream_copies (extract_audio_cmd "clip.mp4" "audio.mp3")
    ∧ "-q:a" ∈ extract_audio_cmd "clip.mp4" "audio.mp3" := by
  constructor
  · intro h
    simp [cmd_stream_copies, extract_audio_cmd] at h
  · simp [extract_audio_cmd]

/-- C5 amended: the Media Extractor invokes ffmpeg to produce an audio-only
file at the destination (`-vn` drops video, `-map a` selects the audio
streams, the destination path is the output), but it re-encodes the audio at
the encoder quality setting `-q:a 0` rather than stream-copying it: the
command carries no `copy` codec selection — in contrast to the subtitle
muxer's command, which does stream-copy. -/
theorem extractor_command_amended (v a : String) :
    "-vn" ∈ extract_audio_cmd v a
    ∧ "-map" ∈ extract_audio_cmd v a
    ∧ a ∈ extract_audio_cmd v a
    ∧ "-q:a" ∈ extract_audio_cmd v a
    ∧ "0" ∈ extract_audio_cmd v a
    ∧ (v ≠ "copy" → a ≠ "copy" → ¬ cmd_stream_copies (extract_audio_cmd v a))
    ∧ cmd_stream_copies (embed_subtitles_cmd v "subs.srt" "out.mp4") := by
  refine ⟨by simp [extract_audio_cmd], by simp [extract_audio_cmd],
    by simp [extract_audio_cmd], by simp [extract_audio_cmd],
    by simp [extract_audio_cmd], ?_, by simp [cmd_stream_copies, embed_subtitles_cmd]⟩
  intro hv ha h
  simp only [cmd_stream_copies, extract_audio_cmd, List.mem_cons, List.not_mem_nil] at h
  rcases h with h | h | h | h | h | h | h | h | h | h | h <;>
    first
      | exact absurd h.symm hv
      | exact absurd h.symm ha
      | simp_all

/-- Witness for C5's amended theorem at concrete paths. -/
theorem extractor_command_amended_witness :
    ¬ cmd_stream_copies (extract_audio_cmd "clip2.mp4" "audio2.mp3") :=
  ((extractor_command_amended "clip2.mp4" "audio2.mp3").2.2.2.2.2.1
    (by decide) (by decide))

/-- C6: path resolution in `main`. A directory yields the ordered list of
entries matching the selected media-kind pattern and fails with the
no-matching-files condition (running no jobs) when nothing matches; a plain
file yields exactly that single file as the work list; anything else fails
with the invalid-path condition and runs no jobs. -/
theorem path_resolution (fp : String) (useVideo : Bool) :
    (∀ entries : List String,
      (glob_dir fp (pattern_suffix useVideo) entries = [] →
        main_dispatch fp useVideo (PathInfo.dir entries) = RunOutcome.noMatchingFiles
        ∧ (main_dispatch fp useVideo (PathInfo.dir entries)).jobs = [])
      ∧ (glob_dir fp (pattern_suffix useVideo) entries ≠ [] →
        main_dispatch fp useVideo (PathInfo.dir entries)
          = RunOutcome.ranDir (glob_dir fp (pattern_suffix useVideo) entries)))
    ∧ main_dispatch fp useVideo PathInfo.file = RunOutcome.ranSingle fp
    ∧ (main_dispatch fp useVideo PathInfo.file).jobs = [fp]
    ∧ main_dispatch fp useVideo PathInfo.neither = RunOutcome.invalidPath
    ∧ (main_dispatch fp useVideo PathInfo.neither).jobs = [] := by
  refine ⟨?_, rfl, rfl, rfl, rfl⟩
  intro entries
  constructor
  · intro hempty
    simp [main_dispatch, hempty, RunOutcome.jobs]
  · intro hne
    simp only [main_dispatch]
    rw [if_neg (by simpa [List.isEmpty_iff] using hne)]

/-- Witness for C6 at a concrete directory with one match and at an empty
directory. -/
theorem path_resolution_witness :
    main_dispatch "d" false (PathInfo.dir ["a.mp3", "b.txt"])
      = RunOutcome.ranDir ["d/a.mp3"]
    ∧ main_dispatch "d" false (PathInfo.dir ["b.txt"])
      = RunOutcome.noMatchingFiles := by
  constructor
  · have h := ((path_resolution "d" false).1 ["a.mp3", "b.txt"]).2 (by decide)
    rw [h]
    decide
  · exact (((path_resolution "d" false).1 ["b.txt"]).1 (by decide)).1

/-- C7: on a missing (or empty) credential and on an invalid path, `main`
prints an error line and finishes with process exit status 0 — indeed every
path of `main` exits with status 0 — and submits no jobs in the error
cases. -/
theorem error_exit_status (fp : String) (useVideo : Bool) :
    (∀ info : PathInfo,
      main_model none fp useVideo info
        = { exitCode := 0,
            out := ["Error: DEEPGRAM_API_KEY not found in .env file or environment variables."],
            jobs := [] }
      ∧ main_model (some "") fp useVideo info
        = { exitCode := 0,
            out := ["Error: DEEPGRAM_API_KEY not found in .env file or environment variables."],
            jobs := [] })
    ∧ (∀ key : String, key ≠ "" →
        main_model (some key) fp useVideo PathInfo.neither
          = { exitCode := 0,
              out := ["Error: " ++ fp ++ " is not a valid file or directory"],
              jobs := [] })
    ∧ (∀ (apiKey : Option String) (info : PathInfo),
        (main_model apiKey fp useVideo info).exitCode = 0) := by
  refine ⟨fun info => ⟨rfl, rfl⟩, ?_, ?_⟩
  · intro key hkey
    simp [main_model, main_dispatch, hkey]
  · intro apiKey info
    rcases apiKey with _ | key
    · rfl
    · by_cases hkey : key = ""
      · simp [main_model, hkey]
      · simp only [main_model, if_neg hkey]
        rcases h : main_dispatch fp useVideo info <;> rfl

/-- Witness for C7: a nonempty credential with an invalid path exits 0 with
the invalid-path error printed and no jobs run. -/
theorem error_exit_status_witness :
    main_model (some "key") "missing" false PathInfo.neither
      = { exitCode := 0,
          out := ["Error: missing is not a valid file or directory"],
          jobs := [] } :=
  (error_exit_status "missing" false).2.1 "key" (by decide)

/-- C10: the directory scan. `main` uses the literal pattern `*.mp3` for
`--file` and `*.mp4` for `--video`; a name is matched iff it is a direct,
non-hidden entry of the directory (the single-component pattern never
crosses a path separator, so the scan is non-recursive) ending with the
literal, case-sensitively compared suffix. Concretely, `sub/c.mp3` (a file
in a subdirectory) and `X.MP3` (an upper-case extension) are not in the work
list while `a.mp3` is. -/
theorem directory_scan (d : String) :
    file_extension false = "*.mp3"
    ∧ file_extension true = "*.mp4"
    ∧ (∀ (sfx : String) (entries : List String) (name : String),
        name ∈ glob_dir d sfx entries ↔
          ∃ e ∈ entries, ¬ py_contains '/' e ∧ py_endswith sfx e
            ∧ ¬ py_startswith "." e ∧ name = path_join d e)
    ∧ glob_dir d ".mp3" ["a.mp3", "X.MP3", "sub/c.mp3", "b.txt"] = [path_join d "a.mp3"] := by
  refine ⟨rfl, rfl, ?_, ?_⟩
  · intro sfx entries name
    simp only [glob_dir, List.mem_map, List.mem_filter, glob_entry_matches,
      Bool.and_eq_true, Bool.not_eq_true']
    constructor
    · rintro ⟨e, ⟨he, hm⟩, rfl⟩
      refine ⟨e, he, ?_, ?_, ?_, rfl⟩
      · simpa using hm.1.1
      · exact hm.1.2
      · simpa using hm.2
    · rintro ⟨e, he, h1, h2, h3, rfl⟩
      exact ⟨e, ⟨he, by simp [h1, h2, h3]⟩, rfl⟩
  · have hf : List.filter (glob_entry_matches ".mp3")
        ["a.mp3", "X.MP3", "sub/c.mp3", "b.txt"] = ["a.mp3"] := by decide
    simp [glob_dir, hf]

/-- C3: temporary-artifact cleanup. Under the freshness `mkstemp` guarantees
(the three temp names are new files, pairwise distinct, and distinct from
the job's input and subtitle output paths), the job ends with no file at any
of the three temporary paths — on every exit path: success, handled step
failures, and the caught-exception path; moreover a job whose extraction
step fails leaves the entire filesystem (in particular the original input
file) exactly as it was. -/
theorem temp_artifact_cleanup (fp : String) (args : Args) (w : Oracle) (fs0 : Fs)
    (hA0 : fs0.get w.tempAudioName = none)
    (hS0 : fs0.get w.tempSrtName = none)
    (hO0 : fs0.get w.tempOutputName = none)
    (hAS : w.tempAudioName ≠ w.tempSrtName)
    (hAO : w.tempAudioName ≠ w.tempOutputName)
    (hSO : w.tempSrtName ≠ w.tempOutputName)
    (hAf : w.tempAudioName ≠ fp)
    (hSf : w.tempSrtName ≠ fp)
    (hOf : w.tempOutputName ≠ fp)
    (hAsrt : w.tempAudioName ≠ srt_filename fp)
    (hSsrt : w.tempSrtName ≠ srt_filename fp)
    (hOsrt : w.tempOutputName ≠ srt_filename fp) :
    (process_audio_file fp args w fs0).fs.get w.tempAudioName = none
    ∧ (process_audio_file fp args w fs0).fs.get w.tempSrtName = none
    ∧ (process_audio_file fp args w fs0).fs.get w.tempOutputName = none
    ∧ (is_video fp = true → w.extractOk = false →
        ∀ p, (process_audio_file fp args w fs0).fs.get p = fs0.get p) := by
  by_cases hv : is_video fp = true
  · rcases hE : w.extractOk with _ | _
    · -- extraction subprocess failed: early return, `finally` removes the temp audio
      refine ⟨?_, ?_, ?_, ?_⟩
      · simp [process_audio_file, process_body, hv, hE]
      · simp [process_audio_file, process_body, hv, hE, Ne.symm hAS, hS0]
      · simp [process_audio_file, process_body, hv, hE, Ne.symm hAO, hO0]
      · intro _ _ p
        by_cases hp : p = w.tempAudioName
        · subst hp
          simp [process_audio_file, process_body, hv, hE, hA0]
        · simp [process_audio_file, process_body, hv, hE, hp]
    · -- extraction succeeded
      rcases hR : w.response with _ | resp
      · -- the transcription request raised
        refine ⟨?_, ?_, ?_, by intro _ h; cases h⟩
        · simp [process_audio_file, process_body, afterAudio, hv, hE, hR]
        · simp [process_audio_file, process_body, afterAudio, hv, hE, hR,
            Ne.symm hAS, hS0]
        · simp [process_audio_file, process_body, afterAudio, hv, hE, hR,
            Ne.symm hAO, hO0]
      · rcases hT : args.transcript with _ | _
        · -- subtitle mode for a video: srt temp, output temp, mux
          rcases hM : w.muxOk with _ | _
          · -- mux failed: all three temps removed
            refine ⟨?_, ?_, ?_, by intro _ h; cases h⟩
            · simp [process_audio_file, process_body, afterAudio, hv, hE, hR, hT, hM,
                hAS, hAO]
            · simp [process_audio_file, process_body, afterAudio, hv, hE, hR, hT, hM,
                hSO]
            · simp [process_audio_file, process_body, afterAudio, hv, hE, hR, hT, hM]
          · -- mux succeeded: output moved onto the original, audio and srt removed
            refine ⟨?_, ?_, ?_, by intro _ h; cases h⟩
            · simp [process_audio_file, process_body, afterAudio, hv, hE, hR, hT, hM,
                hAS]
            · simp [process_audio_file, process_body, afterAudio, hv, hE, hR, hT, hM]
            · simp [process_audio_file, process_body, afterAudio, hv, hE, hR, hT, hM,
                Ne.symm hSO, Ne.symm hAO]
              rw [replace_get_src _ _ _ w.muxedVideo (by simp) hOf]
        · -- transcript mode: nothing persists, only the temp audio to remove
          refine ⟨?_, ?_, ?_, by intro _ h; cases h⟩
          · simp [process_audio_file, process_body, afterAudio, hv, hE, hR, hT]
          · simp [process_audio_file, process_body, afterAudio, hv, hE, hR, hT,
              Ne.symm hAS, hS0]
          · simp [process_audio_file, process_body, afterAudio, hv, hE, hR, hT,
              Ne.symm hAO, hO0]
  · -- audio input: no temp is ever created
    have hv' : is_video fp = false := by simpa using hv
    rcases hread : fs0.get fp with _ | buf
    · refine ⟨?_, ?_, ?_, by intro h; rw [hv'] at h; cases h⟩ <;>
        simp [process_audio_file, process_body, afterAudio, hv', hread, hA0, hS0, hO0]
    · rcases hR : w.response with _ | resp
      · refine ⟨?_, ?_, ?_, by intro h; rw [hv'] at h; cases h⟩ <;>
          simp [process_audio_file, process_body, afterAudio, hv', hread, hR,
            hA0, hS0, hO0]
      · rcases hT : args.transcript with _ | _
        · -- subtitle mode for audio: the `.srt` sibling is written, no temps exist
          refine ⟨?_, ?_, ?_, by intro h; rw [hv'] at h; cases h⟩ <;>
            simp [process_audio_file, process_body, afterAudio, hv', hread, hR, hT,
              hA0, hS0, hO0, hAsrt, hSsrt, hOsrt]
        · refine ⟨?_, ?_, ?_, by intro h; rw [hv'] at h; cases h⟩ <;>
            simp [process_audio_file, process_body, afterAudio, hv', hread, hR, hT,
              hA0, hS0, hO0]

/-- Witness for C3: a video job whose extraction fails, with concrete fresh
temp names, ends with no file at the temp audio path. -/
theorem temp_artifact_cleanup_witness :
    (process_audio_file "movie.mp4" ⟨"nova-3", "en", false⟩
        ⟨"/tmp/a.mp3", "/tmp/s.srt", "/tmp/o.mp4", false, "audio", "partial",
         "Error extracting audio: boom", none, "exn", false, "muxed", "mleft",
         "Error embedding subtitles: boom"⟩
        (fun p => if p = "movie.mp4" then some "videobytes" else none)).fs.get
      "/tmp/a.mp3" = none :=
  (temp_artifact_cleanup "movie.mp4" ⟨"nova-3", "en", false⟩
      ⟨"/tmp/a.mp3", "/tmp/s.srt", "/tmp/o.mp4", false, "audio", "partial",
       "Error extracting audio: boom", none, "exn", false, "muxed", "mleft",
       "Error embedding subtitles: boom"⟩
      (fun p => if p = "movie.mp4" then some "videobytes" else none)
      (by decide) (by decide) (by decide) (by decide) (by decide) (by decide)
      (by decide) (by decide) (by decide) (by decide) (by decide) (by decide)).1

/-- C2: per-job failure containment. Under `mkstemp` freshness, every kind
of job failure — extraction subprocess failure, an unreadable input, a
raising transcription request, a mux subprocess failure — leaves the
filesystem exactly as it was (the job produces no output) and logs an error
line mentioning the failure; and the batch join processes every submitted
file regardless of each job's outcome, so no failure aborts sibling jobs or
later batches. -/
theorem job_failure_contained (fp : String) (args : Args) (w : Oracle) (fs0 : Fs)
    (hA0 : fs0.get w.tempAudioName = none)
    (hS0 : fs0.get w.tempSrtName = none)
    (hO0 : fs0.get w.tempOutputName = none)
    (hAS : w.tempAudioName ≠ w.tempSrtName)
    (hAO : w.tempAudioName ≠ w.tempOutputName)
    (hSO : w.tempSrtName ≠ w.tempOutputName)
    (hAf : w.tempAudioName ≠ fp)
    (hSf : w.tempSrtName ≠ fp)
    (hOf : w.tempOutputName ≠ fp) :
    ((is_video fp = true → w.extractOk = false →
        (∀ p, (process_audio_file fp args w fs0).fs.get p = fs0.get p)
        ∧ w.extractErrLine ∈ (process_audio_file fp args w fs0).out)
    ∧ (is_video fp = false → fs0.get fp = none →
        (∀ p, (process_audio_file fp args w fs0).fs.get p = fs0.get p)
        ∧ ("An error occurred processing " ++ fp ++ ": " ++ w.exnMsg)
            ∈ (process_audio_file fp args w fs0).out)
    ∧ ((is_video fp = true → w.extractOk = true)
        → (is_video fp = false → (fs0.get fp).isSome)
        → w.response = none →
        (∀ p, (process_audio_file fp args w fs0).fs.get p = fs0.get p)
        ∧ ("An error occurred processing " ++ fp ++ ": " ++ w.exnMsg)
            ∈ (process_audio_file fp args w fs0).out)
    ∧ (is_video fp = true → w.extractOk = true → w.response.isSome →
        args.transcript = false → w.muxOk = false →
        (∀ p, (process_audio_file fp args w fs0).fs.get p = fs0.get p)
        ∧ "Failed to embed subtitles. Original file unchanged."
            ∈ (process_audio_file fp args w fs0).out
        ∧ w.muxErrLine ∈ (process_audio_file fp args w fs0).out)
    ∧ (∀ (ow : String → Oracle) (files : List String) (fs : Fs),
        (run_job_list args ow files fs).2 = files)) := by
  refine ⟨?_, ?_, ?_, ?_, fun ow files fs => run_job_list_runs_all args ow files fs⟩
  · -- extraction failure
    intro hv hE
    constructor
    · intro p
      by_cases hp : p = w.tempAudioName
      · subst hp
        simp [process_audio_file, process_body, hv, hE, hA0]
      · simp [process_audio_file, process_body, hv, hE, hp]
    · simp [process_audio_file, process_body, hv, hE]
  · -- unreadable audio input
    intro hv' hread
    constructor
    · intro p
      simp [process_audio_file, process_body, afterAudio, hv', hread]
    · simp [process_audio_file, process_body, afterAudio, hv', hread]
  · -- transcription request raised
    intro hEv hRead hR
    by_cases hv : is_video fp = true
    · have hE := hEv hv
      constructor
      · intro p
        by_cases hp : p = w.tempAudioName
        · subst hp
          simp [process_audio_file, process_body, afterAudio, hv, hE, hR, hA0]
        · simp [process_audio_file, process_body, afterAudio, hv, hE, hR, hp]
      · simp [process_audio_file, process_body, afterAudio, hv, hE, hR]
    · have hv' : is_video fp = false := by simpa using hv
      obtain ⟨buf, hread⟩ := Option.isSome_iff_exists.mp (hRead hv')
      constructor
      · intro p
        simp [process_audio_file, process_body, afterAudio, hv', hread, hR]
      · simp [process_audio_file, process_body, afterAudio, hv', hread, hR]
  · -- mux subprocess failure
    intro hv hE hRs hT hM
    obtain ⟨resp, hR⟩ := Option.isSome_iff_exists.mp hRs
    refine ⟨?_, ?_, ?_⟩
    · intro p
      by_cases hpA : p = w.tempAudioName
      · subst hpA
        simp [process_audio_file, process_body, afterAudio, hv, hE, hR, hT, hM,
          hA0, hAS, hAO]
      · by_cases hpS : p = w.tempSrtName
        · subst hpS
          simp [process_audio_file, process_body, afterAudio, hv, hE, hR, hT, hM,
            hS0, hSO]
        · by_cases hpO : p = w.tempOutputName
          · subst hpO
            simp [process_audio_file, process_body, afterAudio, hv, hE, hR, hT, hM, hO0]
          · simp [process_audio_file, process_body, afterAudio, hv, hE, hR, hT, hM,
              hpA, hpS, hpO]
    · simp [process_audio_file, process_body, afterAudio, hv, hE, hR, hT, hM]
    · simp [process_audio_file, process_body, afterAudio, hv, hE, hR, hT, hM]

/-- Witness for C2: a concrete failing extraction logs its error line. -/
theorem job_failure_contained_witness :
    "Error extracting audio: boom" ∈
      (process_audio_file "movie.mp4" ⟨"nova-3", "en", false⟩
        ⟨"/tmp/a.mp3", "/tmp/s.srt", "/tmp/o.mp4", false, "audio", "partial",
         "Error extracting audio: boom", none, "exn", false, "muxed", "mleft",
         "Error embedding subtitles: boom"⟩
        (fun p => if p = "movie.mp4" then some "videobytes" else none)).out :=
  ((job_failure_contained "movie.mp4" ⟨"nova-3", "en", false⟩
      ⟨"/tmp/a.mp3", "/tmp/s.srt", "/tmp/o.mp4", false, "audio", "partial",
       "Error extracting audio: boom", none, "exn", false, "muxed", "mleft",
       "Error embedding subtitles: boom"⟩
      (fun p => if p = "movie.mp4" then some "videobytes" else none)
      (by decide) (by decide) (by decide) (by decide) (by decide) (by decide)
      (by decide) (by decide) (by decide)).1 (by decide) (by decide)).2

/-- C4: mux atomicity. For a video job in subtitle mode (temp names fresh):
if the mux subprocess fails the original video path keeps exactly its prior
content; the original path's content changes only if the mux reported
success (and extraction and transcription succeeded), in which case it holds
the complete muxed output; and the replace step appears in the trace only
when the mux step succeeded. -/
theorem mux_atomic_replace (fp : String) (args : Args) (w : Oracle) (fs0 : Fs)
    (hv : is_video fp = true) (hT : args.transcript = false)
    (hAf : w.tempAudioName ≠ fp) (hSf : w.tempSrtName ≠ fp)
    (hOf : w.tempOutputName ≠ fp) :
    ((w.muxOk = false →
        (process_audio_file fp args w fs0).fs.get fp = fs0.get fp)
    ∧ ((process_audio_file fp args w fs0).fs.get fp ≠ fs0.get fp →
        w.muxOk = true ∧ w.extractOk = true ∧ w.response.isSome
        ∧ (process_audio_file fp args w fs0).fs.get fp = some w.muxedVideo)
    ∧ (Step.replaceOriginal ∈ (process_audio_file fp args w fs0).steps →
        w.muxOk = true ∧ Step.mux ∈ (process_audio_file fp args w fs0).steps)) := by
  rcases hE : w.extractOk with _ | _
  · -- extraction fails: the job never reaches the mux
    have hfp : (process_audio_file fp args w fs0).fs.get fp = fs0.get fp := by
      simp [process_audio_file, process_body, hv, hE, Ne.symm hAf]
    refine ⟨fun _ => hfp, fun hne => absurd hfp hne, ?_⟩
    intro hmem
    simp [process_audio_file, process_body, hv, hE] at hmem
  · rcases hR : w.response with _ | resp
    · -- transcription raises: the job never reaches the mux
      have hfp : (process_audio_file fp args w fs0).fs.get fp = fs0.get fp := by
        simp [process_audio_file, process_body, afterAudio, hv, hE, hR, Ne.symm hAf]
      refine ⟨fun _ => hfp, fun hne => absurd hfp hne, ?_⟩
      intro hmem
      simp [process_audio_file, process_body, afterAudio, hv, hE, hR] at hmem
    · rcases hM : w.muxOk with _ | _
      · -- mux fails: ffmpeg wrote only the temp output, the original is untouched
        have hfp : (process_audio_file fp args w fs0).fs.get fp = fs0.get fp := by
          simp [process_audio_file, process_body, afterAudio, hv, hE, hR, hT, hM,
            Ne.symm hAf, Ne.symm hSf, Ne.symm hOf]
        refine ⟨fun _ => hfp, fun hne => absurd hfp hne, ?_⟩
        intro hmem
        simp [process_audio_file, process_body, afterAudio, hv, hE, hR, hT, hM] at hmem
      · -- mux succeeds: `os.replace` moves the finished output onto the original
        have hfp : (process_audio_file fp args w fs0).fs.get fp = some w.muxedVideo := by
          simp [process_audio_file, process_body, afterAudio, hv, hE, hR, hT, hM,
            Ne.symm hAf, Ne.symm hSf, Fs.replace]
        refine ⟨?_, ?_, ?_⟩
        · intro h; cases h
        · intro _
          exact ⟨rfl, rfl, by simp, hfp⟩
        · intro _
          refine ⟨rfl, ?_⟩
          simp [process_audio_file, process_body, afterAudio, hv, hE, hR, hT, hM]

/-- Witness for C4: with a concrete failing mux, the original video's bytes
are untouched. -/
theorem mux_atomic_replace_witness :
    (process_audio_file "movie.mp4" ⟨"nova-3", "en", false⟩
        ⟨"/tmp/a.mp3", "/tmp/s.srt", "/tmp/o.mp4", true, "audio", "partial",
         "Error extracting audio: boom", some ⟨"hello", "1\n"⟩, "exn", false,
         "muxed", "mleft", "Error embedding subtitles: boom"⟩
        (fun p => if p = "movie.mp4" then some "videobytes" else none)).fs.get
      "movie.mp4" = some "videobytes" :=
  ((mux_atomic_replace "movie.mp4" ⟨"nova-3", "en", false⟩
      ⟨"/tmp/a.mp3", "/tmp/s.srt", "/tmp/o.mp4", true, "audio", "partial",
       "Error extracting audio: boom", some ⟨"hello", "1\n"⟩, "exn", false,
       "muxed", "mleft", "Error embedding subtitles: boom"⟩
      (fun p => if p = "movie.mp4" then some "videobytes" else none)
      (by decide) (by decide) (by decide) (by decide) (by decide)).1 rfl).trans
    (by decide)

/-- C8: transcript mode on an audio file. With `--transcript` set and a
readable non-video input whose transcription succeeds, the job's output
contains the transcript text returned by the service, the filesystem is
left untouched at every path (no `.srt` file, no other persisted side
effect), and the job's steps are exactly read, transcribe, print. -/
theorem transcript_mode_prints (fp : String) (args : Args) (w : Oracle) (fs0 : Fs)
    (t : TranscriptResult) (buf : String)
    (hv : is_video fp = false) (ht : args.transcript = true)
    (hread : fs0.get fp = some buf) (hresp : w.response = some t) :
    t.transcript ∈ (process_audio_file fp args w fs0).out
    ∧ (∀ p, (process_audio_file fp args w fs0).fs.get p = fs0.get p)
    ∧ (process_audio_file fp args w fs0).steps
        = [Step.readAudio, Step.transcribe, Step.printTranscript] := by
  refine ⟨?_, ?_, ?_⟩ <;>
    simp [process_audio_file, process_body, afterAudio, hv, hread, hresp, ht]

/-- Witness for C8 at a concrete audio file and transcript. -/
theorem transcript_mode_prints_witness :
    "hello world" ∈
      (process_audio_file "song.mp3" ⟨"nova-3", "en", true⟩
        ⟨"/tmp/a.mp3", "/tmp/s.srt", "/tmp/o.mp4", true, "audio", "partial",
         "Error extracting audio: boom", some ⟨"hello world", "1\n"⟩, "exn", true,
         "muxed", "mleft", "Error embedding subtitles: boom"⟩
        (fun p => if p = "song.mp3" then some "mp3bytes" else none)).out :=
  (transcript_mode_prints "song.mp3" ⟨"nova-3", "en", true⟩
      ⟨"/tmp/a.mp3", "/tmp/s.srt", "/tmp/o.mp4", true, "audio", "partial",
       "Error extracting audio: boom", some ⟨"hello world", "1\n"⟩, "exn", true,
       "muxed", "mleft", "Error embedding subtitles: boom"⟩
      (fun p => if p = "song.mp3" then some "mp3bytes" else none)
      ⟨"hello world", "1\n"⟩ "mp3bytes"
      (by decide) (by decide) (by decide) rfl).1

/-- C9: whether a job is processed as video — the extraction step attempted,
and in subtitle mode the mux-back — is decided solely by whether the path
ends, case-insensitively, in `.mp4`, and the single-file dispatch in `main`
is identical for `--file` and `--video`: the flag plays no part in how a
single file's job runs. -/
theorem video_decided_by_suffix :
    (∀ (fp : String) (args : Args) (w : Oracle) (fs0 : Fs),
        Step.extract ∈ (process_audio_file fp args w fs0).steps
          ↔ is_video fp = true)
    ∧ (∀ fp : String, is_video fp = py_endswith ".mp4" (py_lower fp))
    ∧ (∀ (apiKey : Option String) (fp : String),
        main_model apiKey fp true PathInfo.file
          = main_model apiKey fp false PathInfo.file) := by
  refine ⟨?_, fun _ => rfl, ?_⟩
  · intro fp args w fs0
    constructor
    · intro hmem
      by_contra hv
      have hv' : is_video fp = false := by simpa using hv
      simp only [process_audio_file, process_body, hv', Bool.false_eq_true,
        if_false] at hmem
      rcases afterAudio_steps_src fp args w none fp fs0 [] [] Step.extract hmem with h | h
      · simp at h
      · exact h rfl
    · intro hv
      rcases hE : w.extractOk with _ | _
      · simp [process_audio_file, process_body, hv, hE]
      · simp only [process_audio_file, process_body, hv, hE, if_true]
        exact afterAudio_steps_mono fp args w _ _ _ _ _ Step.extract (by simp)
  · intro apiKey fp
    rcases apiKey with _ | key
    · rfl
    · by_cases hkey : key = "" <;> simp [main_model, main_dispatch, hkey]

end DeepgramCli
